import Mathlib

/-!
Shallow embedding of the `ArcVault` contract (`contracts/ArcVault.sol`):
a custodial USDC vault with `deposit`, `withdraw`, `transfer`, the view
functions `balanceOf` / `totalVaultBalance`, an OpenZeppelin-style
reentrancy guard, and revert-on-failure external token calls via
SafeERC20.  Addresses are modelled as natural numbers with `0` playing
the zero address; amounts are natural numbers (uint256 overflow is not
reachable in the properties below, which never exceed 2^256).
-/

namespace ArcVault

/-- Account identifiers (Solidity `address`); `0` is the zero address. -/
abbrev Addr := Nat

/-- Errors of the contract.  `ZeroAmount`, `ZeroAddress` and
`InsufficientBalance` are declared in `ArcVault.sol` lines 37-39.
`Reentrant` is the revert raised by the OpenZeppelin `nonReentrant`
modifier (spec: "fails with `Reentrant` if already locked"), and
`TransferFailed` is the normalized failure of a SafeERC20 token call
(spec §9: "a single normalized fails-with(TransferFailed) contract"). -/
inductive VaultError where
  | ZeroAmount : VaultError
  | ZeroAddress : VaultError
  | InsufficientBalance (requested available : Nat) : VaultError
  | Reentrant : VaultError
  | TransferFailed : VaultError
deriving DecidableEq, Repr

/-- Solidity name of each declared error, as it appears in the source. -/
def errDeclaredName : VaultError → String
  | .ZeroAmount => "ZeroAmount"
  | .ZeroAddress => "ZeroAddress"
  | .InsufficientBalance _ _ => "InsufficientBalance"
  | .Reentrant => "ReentrancyGuardReentrantCall"
  | .TransferFailed => "SafeERC20FailedOperation"

/-- Point update of a balance map (Solidity `mapping(address => uint256)`
assignment; absent keys read as zero because the map is total). -/
def setBal (f : Addr → Nat) (a : Addr) (v : Nat) : Addr → Nat :=
  fun x => if x = a then v else f x

/-- Point update of an allowance map (owner, spender). -/
def setAllow (g : Addr → Addr → Nat) (o s : Addr) (v : Nat) :
    Addr → Addr → Nat :=
  fun x y => if x = o then (if y = s then v else g x y) else g x y

/-- State of the external ERC20 token ledger: balances and allowances. -/
structure TokenState where
  bal : Addr → Nat
  allow : Addr → Addr → Nat

/-- Faithful ERC20 `transfer`: moves `amt` from `frm` to `toA`, failing
(returning `none`, i.e. revert/false) when the balance is insufficient. -/
def erc20Transfer (frm toA : Addr) (amt : Nat) (t : TokenState) :
    Option TokenState :=
  if amt ≤ t.bal frm then
    let b1 := setBal t.bal frm (t.bal frm - amt)
    some { t with bal := setBal b1 toA (b1 toA + amt) }
  else none

/-- Faithful ERC20 `transferFrom` by `spender`: checks and consumes the
allowance of `frm` for `spender`, then moves the funds. -/
def erc20TransferFrom (spender frm toA : Addr) (amt : Nat)
    (t : TokenState) : Option TokenState :=
  if amt ≤ t.allow frm spender then
    match erc20Transfer frm toA amt t with
    | none => none
    | some t2 =>
      some { t2 with allow := setAllow t2.allow frm spender (t.allow frm spender - amt) }
  else none

/-- The external token service the vault talks to, as a pair of calls:
`pull frm toA amt` is `safeTransferFrom(frm, toA, amt)` issued by the
vault `toA`, and `push frm toA amt` is `safeTransfer(toA, amt)` issued
by the vault `frm`.  `none` means the call reverted or returned `false`
(SafeERC20 treats both as failure). -/
structure TokenService where
  pull : Addr → Addr → Nat → TokenState → Option TokenState
  push : Addr → Addr → Nat → TokenState → Option TokenState

/-- The faithfully-behaving token service: a standard ERC20. -/
def erc20Svc : TokenService where
  pull := fun frm toA amt => erc20TransferFrom toA frm toA amt
  push := fun frm toA amt => erc20Transfer frm toA amt

/-- Vault contract storage: the `balances` mapping and the reentrancy
guard flag (`ReentrancyGuard._status`, `true` = ENTERED). -/
structure VaultState where
  balances : Addr → Nat
  locked : Bool

/-- Combined on-chain state touched by a vault operation. -/
structure World where
  vault : VaultState
  tok : TokenState

/-- View function `balanceOf` (ArcVault.sol line 107). -/
def balanceOf (s : VaultState) (a : Addr) : Nat := s.balances a

/-- View function `totalVaultBalance` (ArcVault.sol line 114): the
token-service-reported balance of the vault contract `vaddr` itself. -/
def totalVaultBalance (vaddr : Addr) (t : TokenState) : Nat := t.bal vaddr

/-- Constructor (ArcVault.sol line 44): reverts with `ZeroAddress` when
the token handle is the zero address, otherwise binds the handle and
starts with all balances zero and the guard unlocked. -/
def construct (u : Addr) : Except VaultError (Addr × VaultState) :=
  if u = 0 then .error .ZeroAddress
  else .ok (u, { balances := fun _ => 0, locked := false })

/-- Modelled from the spec (the OpenZeppelin `ReentrancyGuard` modifier
is imported by the source but its file is not part of this repository):
"Set to locked for the duration of any mutating operation and guaranteed
to return to unlocked on every exit path (including failure).  An
attempt to enter a mutating operation while locked fails immediately
without any state mutation." -/
def nonReentrant (body : World → Except VaultError World) (w : World) :
    Except VaultError World :=
  if w.vault.locked then .error .Reentrant
  else
    match body { w with vault := { w.vault with locked := true } } with
    | .error e => .error e
    | .ok w2 => .ok { w2 with vault := { w2.vault with locked := false } }

/-- Modelled from the spec (EVM transaction revert semantics are not a
source file of this repository): "operations either complete fully ...
or fail atomically with no partial effect"; a failed operation leaves
the observable state exactly as it was before the call. -/
def runOp (f : World → Except VaultError World) (w : World) : World :=
  match f w with
  | .ok w2 => w2
  | .error _ => w

/-- Overwrite the vault-side balance map of a world. -/
def withBalances (w : World) (f : Addr → Nat) : World :=
  { w with vault := { w.vault with balances := f } }

/-- Body of `deposit` (ArcVault.sol lines 58-65): validate the amount,
credit the caller BEFORE the external pull, then `safeTransferFrom`. -/
def depositBody (svc : TokenService) (vaddr caller : Addr) (amount : Nat)
    (w : World) : Except VaultError World :=
  if amount = 0 then .error .ZeroAmount
  else
    let w2 : World :=
      withBalances w (setBal w.vault.balances caller (w.vault.balances caller + amount))
    match svc.pull caller vaddr amount w2.tok with
    | none => .error .TransferFailed
    | some t => .ok { w2 with tok := t }

/-- `deposit` under the reentrancy guard. -/
def deposit (svc : TokenService) (vaddr caller : Addr) (amount : Nat) :
    World → Except VaultError World :=
  nonReentrant (depositBody svc vaddr caller amount)

/-- Body of `withdraw` (ArcVault.sol lines 71-80): validate, debit the
caller BEFORE the external push, then `safeTransfer` to the caller. -/
def withdrawBody (svc : TokenService) (vaddr caller : Addr) (amount : Nat)
    (w : World) : Except VaultError World :=
  if amount = 0 then .error .ZeroAmount
  else if w.vault.balances caller < amount then
    .error (.InsufficientBalance amount (w.vault.balances caller))
  else
    let w2 : World :=
      withBalances w (setBal w.vault.balances caller (w.vault.balances caller - amount))
    match svc.push vaddr caller amount w2.tok with
    | none => .error .TransferFailed
    | some t => .ok { w2 with tok := t }

/-- `withdraw` under the reentrancy guard. -/
def withdraw (svc : TokenService) (vaddr caller : Addr) (amount : Nat) :
    World → Except VaultError World :=
  nonReentrant (withdrawBody svc vaddr caller amount)

/-- Body of `transfer` (ArcVault.sol lines 87-98): validate recipient
and amount, debit the caller, credit the recipient, then `safeTransfer`
the tokens OUT of the vault to the recipient. -/
def transferBody (svc : TokenService) (vaddr caller toA : Addr)
    (amount : Nat) (w : World) : Except VaultError World :=
  if toA = 0 then .error .ZeroAddress
  else if amount = 0 then .error .ZeroAmount
  else if w.vault.balances caller < amount then
    .error (.InsufficientBalance amount (w.vault.balances caller))
  else
    let b1 := setBal w.vault.balances caller (w.vault.balances caller - amount)
    let w2 : World := withBalances w (setBal b1 toA (b1 toA + amount))
    match svc.push vaddr toA amount w2.tok with
    | none => .error .TransferFailed
    | some t => .ok { w2 with tok := t }

/-- `transfer` under the reentrancy guard. -/
def transfer (svc : TokenService) (vaddr caller toA : Addr) (amount : Nat) :
    World → Except VaultError World :=
  nonReentrant (transferBody svc vaddr caller toA amount)

/-- Success test for an operation outcome. -/
def okB : Except VaultError World → Bool
  | .ok _ => true
  | .error _ => false

/-- The error of a failed outcome, if any. -/
def errOf : Except VaultError World → Option VaultError
  | .ok _ => none
  | .error e => some e

/-! ### Helper lemmas -/

theorem runOp_of_error {f : World → Except VaultError World} {w : World}
    {e : VaultError} (h : f w = .error e) : runOp f w = w := by
  unfold runOp; rw [h]

theorem runOp_of_ok {f : World → Except VaultError World} {w w2 : World}
    (h : f w = .ok w2) : runOp f w = w2 := by
  unfold runOp; rw [h]

theorem okB_iff {e : Except VaultError World} :
    okB e = true ↔ ∃ w2, e = .ok w2 := by
  cases e <;> simp [okB]

theorem setBal_same (f : Addr → Nat) (a : Addr) (v : Nat) :
    setBal f a v a = v := by simp [setBal]

theorem setBal_other (f : Addr → Nat) {a x : Addr} (v : Nat) (h : x ≠ a) :
    setBal f a v x = f x := by simp [setBal, h]

theorem sum_setBal_mem {A : Finset Addr} {a : Addr} (h : a ∈ A)
    (f : Addr → Nat) (v : Nat) :
    Finset.sum A (setBal f a v) + f a = Finset.sum A f + v := by
  classical
  rw [← Finset.add_sum_erase A (setBal f a v) h, ← Finset.add_sum_erase A f h]
  have h2 : ∀ x ∈ A.erase a, setBal f a v x = f x := by
    intro x hx
    exact setBal_other f v (Finset.ne_of_mem_erase hx)
  rw [Finset.sum_congr rfl h2, setBal_same]
  ring

theorem sum_setBal_not_mem {A : Finset Addr} {a : Addr} (h : a ∉ A)
    (f : Addr → Nat) (v : Nat) :
    Finset.sum A (setBal f a v) = Finset.sum A f := by
  refine Finset.sum_congr rfl ?_
  intro x hx
  exact setBal_other f v (fun he => h (he ▸ hx))

/-- Inversion of a successful `deposit`: the guard was free, the amount
nonzero, the pull succeeded on the pre-state token ledger, and the
post-state is the caller-credited ledger with the pull applied. -/
theorem deposit_ok_inv {svc : TokenService} {vaddr caller : Addr}
    {n : Nat} {w w2 : World} (h : deposit svc vaddr caller n w = .ok w2) :
    w.vault.locked = false ∧ 0 < n ∧
    ∃ t, svc.pull caller vaddr n w.tok = some t ∧
      w2.vault.balances = setBal w.vault.balances caller (w.vault.balances caller + n) ∧
      w2.vault.locked = false ∧ w2.tok = t := by
  obtain ⟨⟨bal, lk⟩, tk⟩ := w
  unfold deposit nonReentrant depositBody withBalances at h
  by_cases hlk : lk <;> simp [hlk] at h ⊢
  by_cases hn : n = 0 <;> simp [hn] at h
  cases hp : svc.pull caller vaddr n tk with
  | none => simp [hp] at h
  | some t =>
    simp [hp] at h
    exact ⟨Nat.pos_of_ne_zero hn, t, rfl, by rw [← h], by rw [← h], by rw [← h]⟩

/-- Inversion of a successful `withdraw`: the guard was free, the amount
nonzero and covered by the caller's balance, the push succeeded, and the
post-state is the caller-debited ledger with the push applied. -/
theorem withdraw_ok_inv {svc : TokenService} {vaddr caller : Addr}
    {n : Nat} {w w2 : World} (h : withdraw svc vaddr caller n w = .ok w2) :
    w.vault.locked = false ∧ 0 < n ∧ n ≤ w.vault.balances caller ∧
    ∃ t, svc.push vaddr caller n w.tok = some t ∧
      w2.vault.balances = setBal w.vault.balances caller (w.vault.balances caller - n) ∧
      w2.vault.locked = false ∧ w2.tok = t := by
  obtain ⟨⟨bal, lk⟩, tk⟩ := w
  unfold withdraw nonReentrant withdrawBody withBalances at h
  by_cases hlk : lk <;> simp [hlk] at h ⊢
  by_cases hn : n = 0 <;> simp [hn] at h
  by_cases hb : bal caller < n <;> simp [hb] at h
  cases hp : svc.push vaddr caller n tk with
  | none => simp [hp] at h
  | some t =>
    simp [hp] at h
    exact ⟨Nat.pos_of_ne_zero hn, Nat.le_of_not_lt hb, t, rfl,
      by rw [← h], by rw [← h], by rw [← h]⟩

/-- Inversion of a successful `transfer`: the guard was free, recipient
nonzero, amount nonzero and covered, the push succeeded, and the
post-state is debited at the caller and credited at the recipient. -/
theorem transfer_ok_inv {svc : TokenService} {vaddr caller toA : Addr}
    {n : Nat} {w w2 : World} (h : transfer svc vaddr caller toA n w = .ok w2) :
    w.vault.locked = false ∧ toA ≠ 0 ∧ 0 < n ∧ n ≤ w.vault.balances caller ∧
    ∃ t, svc.push vaddr toA n w.tok = some t ∧
      w2.vault.balances =
        setBal (setBal w.vault.balances caller (w.vault.balances caller - n)) toA
          (setBal w.vault.balances caller (w.vault.balances caller - n) toA + n) ∧
      w2.vault.locked = false ∧ w2.tok = t := by
  obtain ⟨⟨bal, lk⟩, tk⟩ := w
  unfold transfer nonReentrant transferBody withBalances at h
  by_cases hlk : lk <;> simp [hlk] at h ⊢
  by_cases hto : toA = 0 <;> simp [hto] at h
  by_cases hn : n = 0 <;> simp [hn] at h
  by_cases hb : bal caller < n <;> simp [hb] at h
  cases hp : svc.push vaddr toA n tk with
  | none => simp [hp] at h
  | some t =>
    simp [hp] at h
    exact ⟨hto, Nat.pos_of_ne_zero hn, Nat.le_of_not_lt hb, t, rfl,
      by rw [← h], by rw [← h], by rw [← h]⟩

/-- A failed call surfaces its error and, by revert semantics, leaves
the world unchanged. -/
theorem err_run_of_error {op : World → Except VaultError World} {w : World}
    {e : VaultError} (h : op w = .error e) :
    errOf (op w) = some e ∧ runOp op w = w :=
  ⟨by rw [h]; rfl, runOp_of_error h⟩

/-! ### Concrete worlds used by witnesses and counterexamples -/

/-- A world whose vault (at address 10) holds an internal balance of 700
for account 1 and 500 external tokens; account 1 holds 1000 external
tokens and has approved the vault for 1000. -/
def demoWorld : World :=
  { vault := { balances := fun a => if a = 1 then 700 else 0, locked := false },
    tok := { bal := fun a => if a = 1 then 1000 else if a = 10 then 500 else 0,
             allow := fun o s => if o = 1 then (if s = 10 then 1000 else 0) else 0 } }

/-- The demo world with all token allowances revoked. -/
def demoNoAllow : World :=
  { demoWorld with tok := { demoWorld.tok with allow := fun _ _ => 0 } }

/-- The demo world with the reentrancy guard held. -/
def lockedWorld : World :=
  { demoWorld with vault := { demoWorld.vault with locked := true } }

/-- A fresh-ledger world: all internal balances zero, guard unlocked;
account 1 holds 1000 external tokens and has approved the vault
(address 10) for 1000. -/
def cexWorld : World :=
  { vault := { balances := fun _ => 0, locked := false },
    tok := { bal := fun a => if a = 1 then 1000 else 0,
             allow := fun o s => if o = 1 then (if s = 10 then 1000 else 0) else 0 } }

/-! ### Claim theorems -/

/-- C1: if the token-service pull inside `deposit(n)` fails (for any
caller, any `n > 0`, any pull behavior, including a non-standard false
return, both modelled by the pull returning `none`), the whole
operation fails and the caller's balance — indeed the whole world — is
exactly as before the call: the internal credit does not persist. -/
theorem deposit_rollback_on_pull_failure (svc : TokenService)
    (vaddr caller : Addr) (n : Nat) (w : World) (hn : 0 < n)
    (hlk : w.vault.locked = false)
    (hfail : svc.pull caller vaddr n w.tok = none) :
    errOf (deposit svc vaddr caller n w) = some VaultError.TransferFailed ∧
    runOp (deposit svc vaddr caller n) w = w ∧
    balanceOf (runOp (deposit svc vaddr caller n) w).vault caller
      = balanceOf w.vault caller := by
  have herr : deposit svc vaddr caller n w = .error .TransferFailed := by
    unfold deposit nonReentrant depositBody withBalances
    simp [hlk, Nat.pos_iff_ne_zero.mp hn, hfail]
  obtain ⟨h1, h2⟩ := err_run_of_error herr
  exact ⟨h1, h2, by rw [h2]⟩

/-- Witness for C1 at a concrete input: account 1 deposits 5 with no
allowance granted; the pull fails and the world is unchanged. -/
theorem deposit_rollback_on_pull_failure_witness :
    errOf (deposit erc20Svc 10 1 5 demoNoAllow) = some VaultError.TransferFailed ∧
    runOp (deposit erc20Svc 10 1 5) demoNoAllow = demoNoAllow ∧
    balanceOf (runOp (deposit erc20Svc 10 1 5) demoNoAllow).vault 1
      = balanceOf demoNoAllow.vault 1 :=
  deposit_rollback_on_pull_failure erc20Svc 10 1 5 demoNoAllow
    (by decide) (by decide) rfl

/-- C2: while the guard is locked any attempt to enter `deposit`,
`withdraw` or `transfer` fails with `Reentrant` and alters nothing; and
when a mutating operation starts with the guard free, the guard is
unlocked again on every exit path, success or failure. -/
theorem reentrancy_exclusion (svc : TokenService) (vaddr caller toA : Addr)
    (n : Nat) (w : World) :
    (w.vault.locked = true →
      (errOf (deposit svc vaddr caller n w) = some VaultError.Reentrant ∧
        runOp (deposit svc vaddr caller n) w = w) ∧
      (errOf (withdraw svc vaddr caller n w) = some VaultError.Reentrant ∧
        runOp (withdraw svc vaddr caller n) w = w) ∧
      (errOf (transfer svc vaddr caller toA n w) = some VaultError.Reentrant ∧
        runOp (transfer svc vaddr caller toA n) w = w)) ∧
    (w.vault.locked = false →
      (runOp (deposit svc vaddr caller n) w).vault.locked = false ∧
      (runOp (withdraw svc vaddr caller n) w).vault.locked = false ∧
      (runOp (transfer svc vaddr caller toA n) w).vault.locked = false) := by
  constructor
  · intro hlk
    refine ⟨err_run_of_error ?_, err_run_of_error ?_, err_run_of_error ?_⟩
    · unfold deposit nonReentrant; simp [hlk]
    · unfold withdraw nonReentrant; simp [hlk]
    · unfold transfer nonReentrant; simp [hlk]
  · intro hlk
    refine ⟨?_, ?_, ?_⟩
    · cases h : deposit svc vaddr caller n w with
      | error e => rw [runOp_of_error h]; exact hlk
      | ok w2 =>
        rw [runOp_of_ok h]
        obtain ⟨-, -, t, -, -, hl, -⟩ := deposit_ok_inv h
        exact hl
    · cases h : withdraw svc vaddr caller n w with
      | error e => rw [runOp_of_error h]; exact hlk
      | ok w2 =>
        rw [runOp_of_ok h]
        obtain ⟨-, -, -, t, -, -, hl, -⟩ := withdraw_ok_inv h
        exact hl
    · cases h : transfer svc vaddr caller toA n w with
      | error e => rw [runOp_of_error h]; exact hlk
      | ok w2 =>
        rw [runOp_of_ok h]
        obtain ⟨-, -, -, -, t, -, -, hl, -⟩ := transfer_ok_inv h
        exact hl

/-- Witness for C2: with the guard held every operation fails with
`Reentrant` and changes nothing; starting unlocked, each operation ends
unlocked. -/
theorem reentrancy_exclusion_witness :
    ((errOf (deposit erc20Svc 10 1 5 lockedWorld) = some VaultError.Reentrant ∧
        runOp (deposit erc20Svc 10 1 5) lockedWorld = lockedWorld) ∧
      (errOf (withdraw erc20Svc 10 1 5 lockedWorld) = some VaultError.Reentrant ∧
        runOp (withdraw erc20Svc 10 1 5) lockedWorld = lockedWorld) ∧
      (errOf (transfer erc20Svc 10 1 2 5 lockedWorld) = some VaultError.Reentrant ∧
        runOp (transfer erc20Svc 10 1 2 5) lockedWorld = lockedWorld)) ∧
    ((runOp (deposit erc20Svc 10 1 5) demoWorld).vault.locked = false ∧
      (runOp (withdraw erc20Svc 10 1 5) demoWorld).vault.locked = false ∧
      (runOp (transfer erc20Svc 10 1 2 5) demoWorld).vault.locked = false) :=
  ⟨(reentrancy_exclusion erc20Svc 10 1 2 5 lockedWorld).1 rfl,
   (reentrancy_exclusion erc20Svc 10 1 2 5 demoWorld).2 rfl⟩

/-- C4: a successful `transfer(B, n)` by `A ≠ B` with `n > 0` and
sufficient balance moves exactly `n` from `A`'s to `B`'s balance. -/
theorem transfer_postcondition (svc : TokenService) (vaddr A B : Addr)
    (n : Nat) (w : World) (hAB : A ≠ B) (hn : 0 < n)
    (hbal : n ≤ balanceOf w.vault A)
    (hok : okB (transfer svc vaddr A B n w) = true) :
    balanceOf (runOp (transfer svc vaddr A B n) w).vault A + n
      = balanceOf w.vault A ∧
    balanceOf (runOp (transfer svc vaddr A B n) w).vault B
      = balanceOf w.vault B + n := by
  obtain ⟨w2, h2⟩ := okB_iff.mp hok
  obtain ⟨-, -, -, hle, t, -, hb, -, -⟩ := transfer_ok_inv h2
  rw [runOp_of_ok h2]
  simp only [balanceOf] at *
  rw [hb]
  constructor
  · rw [setBal_other _ _ hAB, setBal_same]
    omega
  · rw [setBal_same, setBal_other _ _ (Ne.symm hAB)]

/-- Witness for C4: account 1 transfers 300 to account 2 in the demo
world. -/
theorem transfer_postcondition_witness :
    balanceOf (runOp (transfer erc20Svc 10 1 2 300) demoWorld).vault 1 + 300
      = balanceOf demoWorld.vault 1 ∧
    balanceOf (runOp (transfer erc20Svc 10 1 2 300) demoWorld).vault 2
      = balanceOf demoWorld.vault 2 + 300 :=
  transfer_postcondition erc20Svc 10 1 2 300 demoWorld
    (by decide) (by decide) (by decide) (by decide)

/-- C5: over any finite set of accounts containing the participants,
a successful `deposit(n)` raises the balance sum by exactly `n`, a
successful `withdraw(n)` lowers it by exactly `n`, and a successful
`transfer(to, n)` leaves it unchanged. -/
theorem sum_conservation (svc : TokenService) (vaddr caller toA : Addr)
    (n : Nat) (w : World) (A : Finset Addr) :
    (caller ∈ A → okB (deposit svc vaddr caller n w) = true →
      Finset.sum A (runOp (deposit svc vaddr caller n) w).vault.balances
        = Finset.sum A w.vault.balances + n) ∧
    (caller ∈ A → okB (withdraw svc vaddr caller n w) = true →
      Finset.sum A (runOp (withdraw svc vaddr caller n) w).vault.balances + n
        = Finset.sum A w.vault.balances) ∧
    (caller ∈ A → toA ∈ A → okB (transfer svc vaddr caller toA n w) = true →
      Finset.sum A (runOp (transfer svc vaddr caller toA n) w).vault.balances
        = Finset.sum A w.vault.balances) := by
  refine ⟨fun hA hok => ?_, fun hA hok => ?_, fun hA hB hok => ?_⟩
  · obtain ⟨w2, h2⟩ := okB_iff.mp hok
    obtain ⟨-, -, t, -, hb, -, -⟩ := deposit_ok_inv h2
    rw [runOp_of_ok h2, hb]
    have hs := sum_setBal_mem hA w.vault.balances (w.vault.balances caller + n)
    omega
  · obtain ⟨w2, h2⟩ := okB_iff.mp hok
    obtain ⟨-, -, hle, t, -, hb, -, -⟩ := withdraw_ok_inv h2
    rw [runOp_of_ok h2, hb]
    have hs := sum_setBal_mem hA w.vault.balances (w.vault.balances caller - n)
    omega
  · obtain ⟨w2, h2⟩ := okB_iff.mp hok
    obtain ⟨-, -, -, hle, t, -, hb, -, -⟩ := transfer_ok_inv h2
    rw [runOp_of_ok h2, hb]
    have h1 := sum_setBal_mem hA w.vault.balances (w.vault.balances caller - n)
    have h2s := sum_setBal_mem hB
      (setBal w.vault.balances caller (w.vault.balances caller - n))
      (setBal w.vault.balances caller (w.vault.balances caller - n) toA + n)
    omega

/-- Witness for C5 over the account set containing accounts 1 and 2. -/
theorem sum_conservation_witness :
    (Finset.sum ({1, 2} : Finset Addr)
        (runOp (deposit erc20Svc 10 1 200) demoWorld).vault.balances
      = Finset.sum ({1, 2} : Finset Addr) demoWorld.vault.balances + 200) ∧
    (Finset.sum ({1, 2} : Finset Addr)
        (runOp (withdraw erc20Svc 10 1 200) demoWorld).vault.balances + 200
      = Finset.sum ({1, 2} : Finset Addr) demoWorld.vault.balances) ∧
    (Finset.sum ({1, 2} : Finset Addr)
        (runOp (transfer erc20Svc 10 1 2 300) demoWorld).vault.balances
      = Finset.sum ({1, 2} : Finset Addr) demoWorld.vault.balances) :=
  ⟨(sum_conservation erc20Svc 10 1 2 200 demoWorld {1, 2}).1
      (by decide) (by decide),
   (sum_conservation erc20Svc 10 1 2 200 demoWorld {1, 2}).2.1
      (by decide) (by decide),
   (sum_conservation erc20Svc 10 1 2 300 demoWorld {1, 2}).2.2
      (by decide) (by decide) (by decide)⟩

/-- C6: `withdraw(n)` with `n` above the caller's balance fails with
`InsufficientBalance` carrying the requested and available amounts, and
every balance is unchanged. -/
theorem withdraw_insufficient_balance (svc : TokenService)
    (vaddr caller : Addr) (n : Nat) (w : World) (hn : 0 < n)
    (hlk : w.vault.locked = false)
    (hlt : balanceOf w.vault caller < n) :
    errOf (withdraw svc vaddr caller n w)
      = some (VaultError.InsufficientBalance n (balanceOf w.vault caller)) ∧
    runOp (withdraw svc vaddr caller n) w = w ∧
    ∀ x, balanceOf (runOp (withdraw svc vaddr caller n) w).vault x
      = balanceOf w.vault x := by
  have herr : withdraw svc vaddr caller n w
      = .error (.InsufficientBalance n (w.vault.balances caller)) := by
    unfold withdraw nonReentrant withdrawBody
    simp only [balanceOf] at hlt
    simp [hlk, Nat.pos_iff_ne_zero.mp hn, hlt]
  obtain ⟨h1, h2⟩ := err_run_of_error herr
  exact ⟨h1, h2, fun x => by rw [h2]⟩

/-- Witness for C6: account 1 (balance 700) asks to withdraw 800. -/
theorem withdraw_insufficient_balance_witness :
    errOf (withdraw erc20Svc 10 1 800 demoWorld)
      = some (VaultError.InsufficientBalance 800 700) ∧
    runOp (withdraw erc20Svc 10 1 800) demoWorld = demoWorld ∧
    balanceOf (runOp (withdraw erc20Svc 10 1 800) demoWorld).vault 3
      = balanceOf demoWorld.vault 3 :=
  ⟨(withdraw_insufficient_balance erc20Svc 10 1 800 demoWorld
      (by decide) (by decide) (by decide)).1,
   (withdraw_insufficient_balance erc20Svc 10 1 800 demoWorld
      (by decide) (by decide) (by decide)).2.1,
   (withdraw_insufficient_balance erc20Svc 10 1 800 demoWorld
      (by decide) (by decide) (by decide)).2.2 3⟩

/-- C7: a successful `deposit(n)` increases the caller's balance by
exactly `n` and leaves every other account's balance unchanged. -/
theorem deposit_frame (svc : TokenService) (vaddr caller : Addr)
    (n : Nat) (w : World) (hn : 0 < n)
    (hok : okB (deposit svc vaddr caller n w) = true) :
    balanceOf (runOp (deposit svc vaddr caller n) w).vault caller
      = balanceOf w.vault caller + n ∧
    ∀ x, x ≠ caller →
      balanceOf (runOp (deposit svc vaddr caller n) w).vault x
        = balanceOf w.vault x := by
  obtain ⟨w2, h2⟩ := okB_iff.mp hok
  obtain ⟨-, -, t, -, hb, -, -⟩ := deposit_ok_inv h2
  rw [runOp_of_ok h2]
  simp only [balanceOf]
  rw [hb]
  exact ⟨setBal_same _ _ _, fun x hx => setBal_other _ _ hx⟩

/-- Witness for C7: account 1 deposits 200; account 2 is untouched. -/
theorem deposit_frame_witness :
    balanceOf (runOp (deposit erc20Svc 10 1 200) demoWorld).vault 1
      = balanceOf demoWorld.vault 1 + 200 ∧
    balanceOf (runOp (deposit erc20Svc 10 1 200) demoWorld).vault 2
      = balanceOf demoWorld.vault 2 :=
  ⟨(deposit_frame erc20Svc 10 1 200 demoWorld (by decide) (by decide)).1,
   (deposit_frame erc20Svc 10 1 200 demoWorld (by decide) (by decide)).2
      2 (by decide)⟩

/-- C8: zero-amount deposits, withdrawals and transfers fail with
`ZeroAmount`, a transfer to the zero address fails with `ZeroAddress`,
and in every such case no state is mutated. -/
theorem validation_errors (svc : TokenService) (vaddr caller toA : Addr)
    (n : Nat) (w : World) (hlk : w.vault.locked = false) :
    (errOf (deposit svc vaddr caller 0 w) = some VaultError.ZeroAmount ∧
      runOp (deposit svc vaddr caller 0) w = w) ∧
    (errOf (withdraw svc vaddr caller 0 w) = some VaultError.ZeroAmount ∧
      runOp (withdraw svc vaddr caller 0) w = w) ∧
    (toA ≠ 0 →
      errOf (transfer svc vaddr caller toA 0 w) = some VaultError.ZeroAmount ∧
      runOp (transfer svc vaddr caller toA 0) w = w) ∧
    (errOf (transfer svc vaddr caller 0 n w) = some VaultError.ZeroAddress ∧
      runOp (transfer svc vaddr caller 0 n) w = w) := by
  refine ⟨err_run_of_error ?_, err_run_of_error ?_,
    fun hto => err_run_of_error ?_, err_run_of_error ?_⟩
  · unfold deposit nonReentrant depositBody; simp [hlk]
  · unfold withdraw nonReentrant withdrawBody; simp [hlk]
  · unfold transfer nonReentrant transferBody; simp [hlk, hto]
  · unfold transfer nonReentrant transferBody; simp [hlk]

/-- Witness for C8 at concrete inputs in the demo world. -/
theorem validation_errors_witness :
    (errOf (deposit erc20Svc 10 1 0 demoWorld) = some VaultError.ZeroAmount ∧
      runOp (deposit erc20Svc 10 1 0) demoWorld = demoWorld) ∧
    (errOf (withdraw erc20Svc 10 1 0 demoWorld) = some VaultError.ZeroAmount ∧
      runOp (withdraw erc20Svc 10 1 0) demoWorld = demoWorld) ∧
    (errOf (transfer erc20Svc 10 1 2 0 demoWorld) = some VaultError.ZeroAmount ∧
      runOp (transfer erc20Svc 10 1 2 0) demoWorld = demoWorld) ∧
    (errOf (transfer erc20Svc 10 1 0 10 demoWorld) = some VaultError.ZeroAddress ∧
      runOp (transfer erc20Svc 10 1 0 10) demoWorld = demoWorld) :=
  ⟨(validation_errors erc20Svc 10 1 2 10 demoWorld (by decide)).1,
   (validation_errors erc20Svc 10 1 2 10 demoWorld (by decide)).2.1,
   (validation_errors erc20Svc 10 1 2 10 demoWorld (by decide)).2.2.1 (by decide),
   (validation_errors erc20Svc 10 1 2 10 demoWorld (by decide)).2.2.2⟩

/-! ### The backing invariant (C3) -/

/-- Inversion of a successful ERC20 `transfer`. -/
theorem erc20Transfer_some {frm toA : Addr} {amt : Nat} {t t2 : TokenState}
    (h : erc20Transfer frm toA amt t = some t2) :
    amt ≤ t.bal frm ∧
    t2.bal = setBal (setBal t.bal frm (t.bal frm - amt)) toA
      (setBal t.bal frm (t.bal frm - amt) toA + amt) ∧
    t2.allow = t.allow := by
  unfold erc20Transfer at h
  by_cases hb : amt ≤ t.bal frm
  · simp [hb] at h
    exact ⟨hb, by rw [← h], by rw [← h]⟩
  · simp [hb] at h

/-- Inversion of a successful ERC20 `transferFrom`. -/
theorem erc20TransferFrom_some {spender frm toA : Addr} {amt : Nat}
    {t t2 : TokenState} (h : erc20TransferFrom spender frm toA amt t = some t2) :
    amt ≤ t.allow frm spender ∧ amt ≤ t.bal frm ∧
    t2.bal = setBal (setBal t.bal frm (t.bal frm - amt)) toA
      (setBal t.bal frm (t.bal frm - amt) toA + amt) := by
  unfold erc20TransferFrom at h
  by_cases ha : amt ≤ t.allow frm spender
  · simp [ha] at h
    cases ht : erc20Transfer frm toA amt t with
    | none => rw [ht] at h; simp at h
    | some t3 =>
      rw [ht] at h
      simp at h
      obtain ⟨-, hbal, -⟩ := erc20Transfer_some ht
      exact ⟨ha, (erc20Transfer_some ht).1, by rw [← h]; exact hbal⟩
  · simp [ha] at h

/-- The spec's §3 backing invariant: over every finite set of accounts
the sum of internal balances is at most the token-service-reported
external balance of the vault itself. -/
def backed (vaddr : Addr) (w : World) : Prop :=
  ∀ A : Finset Addr, Finset.sum A w.vault.balances ≤ totalVaultBalance vaddr w.tok

/-- A fresh ledger: every internal balance zero, guard unlocked. -/
def freshVault (w : World) : Prop :=
  (∀ a, w.vault.balances a = 0) ∧ w.vault.locked = false

/-- States reachable from a given world by successful `deposit` and
`withdraw` operations against the faithful ERC20 token service, with
deposits made by callers other than the vault contract itself. -/
inductive ReachDW (vaddr : Addr) : World → World → Prop where
  | refl (w : World) : ReachDW vaddr w w
  | dep {w w1 w2 : World} {caller : Addr} {n : Nat}
      (hr : ReachDW vaddr w w1) (hc : caller ≠ vaddr)
      (hok : deposit erc20Svc vaddr caller n w1 = .ok w2) :
      ReachDW vaddr w w2
  | wd {w w1 w2 : World} {caller : Addr} {n : Nat}
      (hr : ReachDW vaddr w w1)
      (hok : withdraw erc20Svc vaddr caller n w1 = .ok w2) :
      ReachDW vaddr w w2

/-- A successful deposit by an external caller preserves the backing
invariant: internal sum and external holdings both rise by `n`. -/
theorem backed_preserved_deposit {vaddr caller : Addr} {n : Nat}
    {w w2 : World} (hc : caller ≠ vaddr)
    (hok : deposit erc20Svc vaddr caller n w = .ok w2)
    (hinv : backed vaddr w) : backed vaddr w2 := by
  obtain ⟨-, -, t, hpull, hb, -, htok⟩ := deposit_ok_inv hok
  obtain ⟨-, -, hbal⟩ := erc20TransferFrom_some hpull
  have hT : t.bal vaddr = w.tok.bal vaddr + n := by
    rw [hbal, setBal_same, setBal_other _ _ (Ne.symm hc)]
  intro A
  show Finset.sum A w2.vault.balances ≤ w2.tok.bal vaddr
  have hIA : Finset.sum A w.vault.balances ≤ w.tok.bal vaddr := hinv A
  rw [htok, hT, hb]
  by_cases hA : caller ∈ A
  · have hs := sum_setBal_mem hA w.vault.balances (w.vault.balances caller + n)
    omega
  · rw [sum_setBal_not_mem hA]
    omega

/-- A successful withdraw preserves the backing invariant: internal sum
drops by `n` while external holdings drop by `n` (or are unchanged in
the degenerate self-push case). -/
theorem backed_preserved_withdraw {vaddr caller : Addr} {n : Nat}
    {w w2 : World}
    (hok : withdraw erc20Svc vaddr caller n w = .ok w2)
    (hinv : backed vaddr w) : backed vaddr w2 := by
  obtain ⟨-, -, hble, t, hpush, hb, -, htok⟩ := withdraw_ok_inv hok
  obtain ⟨hbt, hbal, -⟩ := erc20Transfer_some hpush
  intro A
  show Finset.sum A w2.vault.balances ≤ w2.tok.bal vaddr
  have hIA : Finset.sum (insert caller A) w.vault.balances ≤ w.tok.bal vaddr :=
    hinv (insert caller A)
  have hsub : Finset.sum A w2.vault.balances
      ≤ Finset.sum (insert caller A) w2.vault.balances :=
    Finset.sum_le_sum_of_subset (Finset.subset_insert caller A)
  have he1 : w2.vault.balances caller
      + Finset.sum ((insert caller A).erase caller) w2.vault.balances
      = Finset.sum (insert caller A) w2.vault.balances :=
    Finset.add_sum_erase _ _ (Finset.mem_insert_self caller A)
  have he2 : w.vault.balances caller
      + Finset.sum ((insert caller A).erase caller) w.vault.balances
      = Finset.sum (insert caller A) w.vault.balances :=
    Finset.add_sum_erase _ _ (Finset.mem_insert_self caller A)
  have hcongr : Finset.sum ((insert caller A).erase caller) w2.vault.balances
      = Finset.sum ((insert caller A).erase caller) w.vault.balances := by
    refine Finset.sum_congr rfl ?_
    intro x hx
    rw [hb]
    exact setBal_other _ _ (Finset.ne_of_mem_erase hx)
  have hc2 : w2.vault.balances caller = w.vault.balances caller - n := by
    rw [hb, setBal_same]
  by_cases hcv : caller = vaddr
  · have hT : t.bal vaddr = w.tok.bal vaddr := by
      subst hcv
      rw [hbal, setBal_same, setBal_same]
      omega
    rw [htok, hT]
    omega
  · have hT : t.bal vaddr = w.tok.bal vaddr - n := by
      rw [hbal, setBal_other _ _ (fun he => hcv he.symm), setBal_same]
    rw [htok, hT]
    omega

/-- C3 (amended): in every state reachable from a fresh ledger by
successful `deposit` and `withdraw` operations (deposits by callers
other than the vault itself) against the faithful ERC20 service, the
sum of internal balances never exceeds the vault's external balance. -/
theorem backing_invariant_deposit_withdraw (vaddr : Addr) (w0 w : World)
    (hfresh : freshVault w0) (hr : ReachDW vaddr w0 w) :
    backed vaddr w := by
  induction hr with
  | refl =>
    intro A
    have hz : Finset.sum A w0.vault.balances = 0 :=
      Finset.sum_eq_zero (fun a _ => hfresh.1 a)
    rw [hz]
    exact Nat.zero_le _
  | dep hr hc hok ih => exact backed_preserved_deposit hc hok ih
  | wd hr hok ih => exact backed_preserved_withdraw hok ih

/-- Counterexample to C3 as stated: from a fresh ledger, account 1
deposits 1000 and then transfers 600 to account 2.  Both operations
succeed, yet the internal balance sum (1000) exceeds the vault's
token-service-reported balance (400), because `transfer` credits the
recipient internally while pushing the tokens out of the vault. -/
theorem backing_invariant_counterexample :
    cexWorld.vault.locked = false ∧
    cexWorld.vault.balances 1 = 0 ∧ cexWorld.vault.balances 2 = 0 ∧
    okB (deposit erc20Svc 10 1 1000 cexWorld) = true ∧
    okB (transfer erc20Svc 10 1 2 600
      (runOp (deposit erc20Svc 10 1 1000) cexWorld)) = true ∧
    ¬ (Finset.sum ({1, 2} : Finset Addr)
        (runOp (transfer erc20Svc 10 1 2 600)
          (runOp (deposit erc20Svc 10 1 1000) cexWorld)).vault.balances
      ≤ totalVaultBalance 10
          (runOp (transfer erc20Svc 10 1 2 600)
            (runOp (deposit erc20Svc 10 1 1000) cexWorld)).tok) := by
  refine ⟨rfl, rfl, rfl, by decide, by decide, by decide⟩

/-- Witness for the amended C3: after a reachable deposit of 1000 by
account 1, the balance sum over accounts 1 and 2 is within the vault's
external holdings. -/
theorem backing_invariant_deposit_withdraw_witness :
    Finset.sum ({1, 2} : Finset Addr)
      (runOp (deposit erc20Svc 10 1 1000) cexWorld).vault.balances
      ≤ totalVaultBalance 10 (runOp (deposit erc20Svc 10 1 1000) cexWorld).tok :=
  backing_invariant_deposit_withdraw 10 cexWorld
    (runOp (deposit erc20Svc 10 1 1000) cexWorld)
    ⟨fun a => rfl, rfl⟩
    (@ReachDW.dep 10 cexWorld cexWorld
      (runOp (deposit erc20Svc 10 1 1000) cexWorld) 1 1000
      (ReachDW.refl cexWorld) (by decide) rfl)
    {1, 2}

/-! ### Construction (C9) -/

/-- The vault state produced by a successful construction. -/
def initialVault : VaultState := { balances := fun _ => 0, locked := false }

/-- Counterexample to C9 as stated: at the zero handle the constructor
fails, but with the validation error `ZeroAddress` — the contract
declares no configuration error, and the name of the raised error is
not `InvalidConfiguration`. -/
theorem construct_invalid_configuration_cex :
    construct 0 = .error VaultError.ZeroAddress ∧
    errDeclaredName VaultError.ZeroAddress ≠ "InvalidConfiguration" := by
  exact ⟨rfl, by decide⟩

/-- C9 (amended): construction fails with `ZeroAddress` exactly when
the handle is the zero address; otherwise it returns the handle bound
in the result together with a ledger whose balances are all zero and
whose guard is unlocked. -/
theorem construct_spec (u : Addr) :
    (u = 0 → construct u = .error VaultError.ZeroAddress) ∧
    (u ≠ 0 → construct u = .ok (u, initialVault) ∧
      (∀ a, balanceOf initialVault a = 0) ∧ initialVault.locked = false) := by
  constructor
  · intro h
    subst h
    rfl
  · intro h
    refine ⟨?_, fun a => rfl, rfl⟩
    unfold construct initialVault
    simp [h]

/-- Witness for C9: construction at handle 0 fails with `ZeroAddress`;
construction at handle 7 succeeds with a zeroed, unlocked ledger. -/
theorem construct_spec_witness :
    construct 0 = .error VaultError.ZeroAddress ∧
    construct 7 = .ok (7, initialVault) ∧
    balanceOf initialVault 3 = 0 ∧ initialVault.locked = false :=
  ⟨(construct_spec 0).1 rfl,
   ((construct_spec 7).2 (by decide)).1,
   ((construct_spec 7).2 (by decide)).2.1 3,
   ((construct_spec 7).2 (by decide)).2.2⟩

/-! ### Self-transfer (C10) -/

/-- C10: a self-transfer of `n` by a nonzero account with sufficient
internal balance is not rejected (given the vault's external holdings
cover the push): it succeeds, leaves the caller's internal balance
exactly unchanged (debit and credit cancel), and the external token
push to the caller still occurs — the caller gains `n` external tokens
at the vault's expense. -/
theorem self_transfer (vaddr caller : Addr) (n : Nat) (w : World)
    (hc0 : caller ≠ 0) (hcv : caller ≠ vaddr) (hn : 0 < n)
    (hbal : n ≤ balanceOf w.vault caller) (hlk : w.vault.locked = false)
    (hext : n ≤ totalVaultBalance vaddr w.tok) :
    okB (transfer erc20Svc vaddr caller caller n w) = true ∧
    balanceOf (runOp (transfer erc20Svc vaddr caller caller n) w).vault caller
      = balanceOf w.vault caller ∧
    (runOp (transfer erc20Svc vaddr caller caller n) w).tok.bal caller
      = w.tok.bal caller + n ∧
    (runOp (transfer erc20Svc vaddr caller caller n) w).tok.bal vaddr + n
      = w.tok.bal vaddr := by
  simp only [balanceOf] at hbal
  simp only [totalVaultBalance] at hext
  have hok : transfer erc20Svc vaddr caller caller n w
      = .ok (withBalances
          { w with tok :=
              { bal := setBal (setBal w.tok.bal vaddr (w.tok.bal vaddr - n))
                  caller (setBal w.tok.bal vaddr (w.tok.bal vaddr - n) caller + n),
                allow := w.tok.allow } }
          (setBal (setBal w.vault.balances caller (w.vault.balances caller - n))
            caller (setBal w.vault.balances caller (w.vault.balances caller - n) caller + n))) := by
    unfold transfer nonReentrant transferBody withBalances erc20Svc erc20Transfer
    simp [hlk, hc0, Nat.pos_iff_ne_zero.mp hn, Nat.not_lt.mpr hbal, hext]
  rw [runOp_of_ok hok]
  refine ⟨by rw [hok]; rfl, ?_, ?_, ?_⟩
  · unfold withBalances balanceOf
    simp only
    rw [setBal_same, setBal_same]
    omega
  · unfold withBalances
    simp only
    rw [setBal_same, setBal_other _ _ hcv]
  · unfold withBalances
    simp only
    rw [setBal_other _ _ (Ne.symm hcv), setBal_same]
    omega

/-- Witness for C10: account 1 self-transfers 300 in the demo world;
its internal balance stays 700 while it gains 300 external tokens from
the vault. -/
theorem self_transfer_witness :
    okB (transfer erc20Svc 10 1 1 300 demoWorld) = true ∧
    balanceOf (runOp (transfer erc20Svc 10 1 1 300) demoWorld).vault 1
      = balanceOf demoWorld.vault 1 ∧
    (runOp (transfer erc20Svc 10 1 1 300) demoWorld).tok.bal 1
      = demoWorld.tok.bal 1 + 300 ∧
    (runOp (transfer erc20Svc 10 1 1 300) demoWorld).tok.bal 10 + 300
      = demoWorld.tok.bal 10 :=
  self_transfer 10 1 300 demoWorld (by decide) (by decide) (by decide)
    (by decide) (by decide) (by decide)

end ArcVault
